import Mathlib

/-!
Verification development for the NOSTR-Wallet Bitcoin core
(`src/lib/bitcoin.ts`, two near-duplicate variants: the legacy mainnet-only
module and the network-parameterized module, plus the network resolver).

The pure logic of the source (hex decoding, key validation, network
parameter resolution, fee estimation, change computation, output
construction, error reporting) is embedded directly.  Calls into the
external libraries `bitcoinjs-lib` / `@bitcoinerlab/secp256k1` / `ecpair`
are modelled at their interface: input validation (byte length, scalar
range, x-only liftability on the secp256k1 curve) is implemented for real,
while the two crypto-opaque value maps (secret -> compressed public key,
internal key -> tweaked output key) are deterministic injective stand-ins
of the correct shape, since no claim in scope depends on their values.
Bech32m address encoding (BIP 350) is implemented for real.
-/

/-! ### Big-number helpers (binary modular exponentiation) -/

/-- Little-endian bits of `n`, at most `fuel` of them (256 suffices for all
secp256k1 field and scalar values). -/
def natBits : Nat → Nat → List Bool
  | 0, _ => []
  | fuel + 1, n => if n = 0 then [] else (n % 2 == 1) :: natBits fuel (n / 2)

/-- `b ^ e % m` by binary square-and-multiply (exponents below `2 ^ 256`). -/
def powMod (b e m : Nat) : Nat :=
  ((natBits 256 e).foldl
    (fun st bit => (if bit then st.1 * st.2 % m else st.1, st.2 * st.2 % m))
    (1 % m, b % m)).1

/-- The secp256k1 field prime `p = 2^256 - 2^32 - 977`. -/
def secpP : Nat :=
  115792089237316195423570985008687907853269984665640564039457584007908834671663

/-- The secp256k1 group order `n`. -/
def secpN : Nat :=
  115792089237316195423570985008687907852837564279074904382605163141518161494337

/-- BIP-340 `lift_x` succeeds on `x`: `x < p` and `x^3 + 7` has a square
root mod `p` (computed as `c^((p+1)/4)` and verified, exactly as the
secp256k1 library's x-only pubkey parse does).  This is the condition under
which the external library accepts a 32-byte buffer as an x-only key. -/
def liftableX (x : Nat) : Bool :=
  x < secpP &&
    (let c := (x ^ 3 + 7) % secpP
     let y := powMod c ((secpP + 1) / 4) secpP
     y * y % secpP == c)

/-! ### Node `Buffer.from(hex, 'hex')` semantics -/

/-- Value of one hex digit (Node accepts both cases). -/
def hexDigitVal? (c : Char) : Option Nat :=
  if '0' ≤ c ∧ c ≤ '9' then some (c.toNat - 48)
  else if 'a' ≤ c ∧ c ≤ 'f' then some (c.toNat - 87)
  else if 'A' ≤ c ∧ c ≤ 'F' then some (c.toNat - 55)
  else none

/-- Decode hex character pairs into bytes, stopping at the first pair that
is not two hex digits and dropping a trailing odd digit — Node's
`Buffer.from(str, 'hex')` truncation semantics (it never throws). -/
def hexPairs : List Char → List Nat
  | c1 :: c2 :: rest =>
    match hexDigitVal? c1, hexDigitVal? c2 with
    | some h, some l => (h * 16 + l) :: hexPairs rest
    | _, _ => []
  | _ => []

/-- `Buffer.from(s, 'hex')` as a byte list. -/
def bufferFromHex (s : String) : List Nat := hexPairs s.data

/-- Big-endian byte list to natural number. -/
def natOfBytes (bs : List Nat) : Nat := bs.foldl (fun a b => a * 256 + b) 0

/-! ### Bech32m (BIP 350) address encoding -/

/-- The bech32 character set. -/
def bech32Charset : List Char := "qpzry9x8gf2tvdw0s3jn54khce6mua7l".data

/-- One step of the bech32 checksum polymod. -/
def bech32PolymodStep (chk v : Nat) : Nat :=
  let b := chk >>> 25
  let t := ((chk &&& 0x1ffffff) <<< 5) ^^^ v
  t ^^^ (if b &&& 1 ≠ 0 then 0x3b6a57b2 else 0)
    ^^^ (if b &&& 2 ≠ 0 then 0x26508e6b else 0)
    ^^^ (if b &&& 4 ≠ 0 then 0x1ea119fa else 0)
    ^^^ (if b &&& 8 ≠ 0 then 0x3d4233dd else 0)
    ^^^ (if b &&& 16 ≠ 0 then 0x2a1462b3 else 0)

/-- The bech32 checksum polymod. -/
def bech32Polymod (values : List Nat) : Nat :=
  values.foldl bech32PolymodStep 1

/-- Human-readable-part expansion for the checksum. -/
def bech32HrpExpand (hrp : String) : List Nat :=
  hrp.data.map (fun c => c.toNat >>> 5) ++ [0] ++ hrp.data.map (fun c => c.toNat &&& 31)

/-- Bech32m checksum (constant `0x2bc830a3`, used for witness v1+). -/
def bech32mChecksum (hrp : String) (data : List Nat) : List Nat :=
  let pm := bech32Polymod (bech32HrpExpand hrp ++ data ++ [0, 0, 0, 0, 0, 0]) ^^^ 0x2bc830a3
  [pm >>> 25 &&& 31, pm >>> 20 &&& 31, pm >>> 15 &&& 31,
   pm >>> 10 &&& 31, pm >>> 5 &&& 31, pm &&& 31]

/-- Assemble a bech32m string from the human-readable part and 5-bit data. -/
def bech32mEncode (hrp : String) (data : List Nat) : String :=
  hrp ++ "1" ++ String.mk ((data ++ bech32mChecksum hrp data).map
    (fun d => bech32Charset.getD d 'q'))

/-- Exactly `len` base-32 digits of `n`, most significant first. -/
def natToBase32BE : Nat → Nat → List Nat → List Nat
  | 0, _, acc => acc
  | len + 1, n, acc => natToBase32BE len (n / 32) (n % 32 :: acc)

/-- Regroup a 32-byte witness program into 52 five-bit groups (256 bits plus
4 zero padding bits), as segwit address encoding requires. -/
def programToBase32 (bs : List Nat) : List Nat :=
  natToBase32BE 52 (natOfBytes bs * 16) []

/-! ### bitcoinjs-lib network parameter sets -/

/-- Chain parameter set, mirroring `bitcoinjs-lib`'s `Network` record
(`magic` holds its `messagePrefix` string). -/
structure Network where
  magic : String
  bech32 : String
  bip32public : Nat
  bip32private : Nat
  pubKeyHash : Nat
  scriptHash : Nat
  wif : Nat
deriving DecidableEq, Repr

/-- `bitcoin.networks.bitcoin`. -/
def networksBitcoin : Network :=
  { magic := "\x18Bitcoin Signed Message:\n"
    bech32 := "bc"
    bip32public := 0x0488b21e
    bip32private := 0x0488ade4
    pubKeyHash := 0x00
    scriptHash := 0x05
    wif := 0x80 }

/-- `bitcoin.networks.testnet`. -/
def networksTestnet : Network :=
  { magic := "\x18Bitcoin Signed Message:\n"
    bech32 := "tb"
    bip32public := 0x043587cf
    bip32private := 0x04358394
    pubKeyHash := 0x6f
    scriptHash := 0xc4
    wif := 0xef }

/-! ### Interface model of the external ECC / payment library -/

/-- A 32-byte buffer is accepted by the library as an x-only internal key
iff it has exactly 32 bytes and its value lifts to a curve point
(BIP-340 `lift_x`); otherwise `bitcoin.payments.p2tr` throws. -/
def isValidXOnly (bs : List Nat) : Bool :=
  bs.length == 32 && liftableX (natOfBytes bs)

/-- Model of the BIP-341 output-key map `P ↦ x(P + hash_TapTweak(P)·G)`
performed inside `bitcoin.payments.p2tr`.  The genuine map needs SHA-256
and curve arithmetic from the external library; no claim in scope depends
on its value, only on it being a pure length-preserving function of the
internal key, so it is modelled by the identity on the 32 key bytes. -/
def tapTweakOutputKey (internalKey : List Nat) : List Nat := internalKey

/-- Model of `bitcoin.payments.p2tr({internalPubkey, network}).address`:
`none` models the library throwing (or yielding no address) on a malformed
internal key; otherwise the bech32m witness-v1 address of the tweaked
output key under the network's human-readable prefix. -/
def p2trAddress (internalKey : List Nat) (net : Network) : Option String :=
  if isValidXOnly internalKey then
    some (bech32mEncode net.bech32 (1 :: programToBase32 (tapTweakOutputKey internalKey)))
  else none

/-- Model of `bitcoin.payments.p2tr({internalPubkey, network}).output`, the
scriptPubKey `OP_1 <32-byte output key>`. -/
def p2trOutputScript (internalKey : List Nat) : List Nat :=
  [0x51, 0x20] ++ tapTweakOutputKey internalKey

/-- `ECPair.fromPrivateKey` accepts a buffer iff it is exactly 32 bytes and
a valid scalar (`0 < d < n`); otherwise it throws. -/
def validPrivateKey (bs : List Nat) : Bool :=
  bs.length == 32 && 0 < natOfBytes bs && natOfBytes bs < secpN

/-- Model of `ECPair.fromPrivateKey(d).publicKey`, the 33-byte compressed
public key.  The genuine map is `d ↦ ser(d·G)` in the external library; no
claim depends on its value, so it is modelled by an injective stand-in of
the correct shape (a parity byte followed by 32 bytes determined by `d`). -/
def publicKeyOfSecret (privBytes : List Nat) : List Nat :=
  2 :: privBytes

/-! ### Network parameter resolution (`src/lib/bitcoin.ts`, parameterized module) -/

/-- The `BitcoinNetwork` string union `'mainnet' | 'testnet' | 'testnet4'`. -/
inductive BitcoinNetwork where
  | mainnet
  | testnet
  | testnet4
deriving DecidableEq, Repr

/-- `getNetwork`: testnet4 uses the same chain parameters as testnet3. -/
def getNetwork (network : BitcoinNetwork) : Network :=
  if network = .testnet ∨ network = .testnet4 then networksTestnet
  else networksBitcoin

/-- `getApiUrl`: the explorer base URL for each network profile. -/
def getApiUrl (network : BitcoinNetwork) : String :=
  if network = .testnet4 then "https://mempool.space/testnet4/api"
  else if network = .testnet then "https://mempool.space/testnet/api"
  else "https://mempool.space/api"

/-- `getBlockstreamApiUrl` (deprecated alias of `getApiUrl`). -/
def getBlockstreamApiUrl (network : BitcoinNetwork) : String :=
  getApiUrl network

/-! ### Shared data model of both Bitcoin modules -/

/-- Confirmation status carried on a UTXO (`status` field of the explorer's
per-address unspent-output response). -/
structure UTXOStatus where
  confirmed : Bool
  block_height : Option Nat := none
  block_hash : Option String := none
  block_time : Option Nat := none
deriving DecidableEq, Repr

/-- A spendable output as both modules declare it (`interface UTXO`). -/
structure UTXO where
  txid : String
  vout : Nat
  value : Nat
  status : UTXOStatus
deriving DecidableEq, Repr

/-- One transaction input as assembled by `psbt.addInput` (hash, index, the
reconstructed P2TR `witnessUtxo`, and the tap internal key). -/
structure TxInput where
  hash : String
  index : Nat
  witnessScript : List Nat
  witnessValue : Nat
  tapInternalKey : List Nat
deriving DecidableEq, Repr

/-- One transaction output as passed to `psbt.addOutput`. -/
structure TxOutput where
  address : String
  value : Int
deriving DecidableEq, Repr

/-- The errors `createBitcoinTransaction` throws before signing:
an invalid private key (thrown inside `ECPair.fromPrivateKey`), a change
address that could not be generated, and insufficient funds — the latter
reporting the required total (`amountSats + estimatedFee`) and the
available total (`totalInput`) exactly as the thrown message does. -/
inductive BuildError where
  | invalidPrivateKey
  | changeAddressFailed
  | insufficientFunds (required : Int) (available : Int)
deriving DecidableEq, Repr

/-- The built transaction: the assembled inputs and outputs of the PSBT
draft (exposed for specification), the serialized hex, and the fee the
function returns. -/
structure BuiltTransaction where
  inputs : List TxInput
  outputs : List TxOutput
  txHex : String
  fee : Int
deriving DecidableEq, Repr

/-- Model of `psbt.signInput` / `finalizeAllInputs` / `extractTransaction()
.toHex()`: the byte-level serialization and the Schnorr signatures are
external-library crypto, modelled as a deterministic rendering of the
draft.  Every claim is invariant under this choice. -/
def serializeTx (inputs : List TxInput) (outputs : List TxOutput) : String :=
  (inputs.foldl (fun s i => s ++ i.hash ++ ":" ++ toString i.index ++ ";") "txin:") ++
    (outputs.foldl (fun s o => s ++ o.address ++ ":" ++ toString o.value ++ ";") "txout:")

/-- `totalInput`, accumulated over the input loop: the sum of the supplied
outputs' values. -/
def totalValue (utxos : List UTXO) : Nat :=
  (utxos.map (fun u => u.value)).sum

/-- `estimatedSize = utxos.length * 57.5 + 2 * 43 + 10.5` — the fixed
two-output size estimate (in vbytes) both modules compute. -/
def estimatedSize (n : Nat) : ℚ :=
  n * 57.5 + 2 * 43 + 10.5

/-- `estimatedFee = Math.ceil(estimatedSize * feeRate)`.  Fee rates are the
whole-number sat/vB tiers the fee endpoint supplies, so the JS float
arithmetic here is exact and `Math.ceil` is the rational ceiling. -/
def estimatedFee (n feeRate : Nat) : Int :=
  Int.ceil (estimatedSize n * feeRate)

/-- `change = totalInput - amountSats - estimatedFee` as the builder
computes it (possibly negative, hence an integer). -/
def changeOf (amountSats : Nat) (utxos : List UTXO) (feeRate : Nat) : Int :=
  (totalValue utxos : Int) - amountSats - estimatedFee utxos.length feeRate

/-- The 32-byte x-only internal key the builder derives from the private
key: `keyPair.publicKey.slice(1, 33)`. -/
def internalKeyOf (privateKeyHex : String) : List Nat :=
  ((publicKeyOfSecret (bufferFromHex privateKeyHex)).drop 1).take 32

/-- The builder's key-setup stage succeeds: the private key parses and the
sender's own P2TR (change) address can be generated. -/
def keySetupOk (privateKeyHex : String) (net : Network) : Bool :=
  validPrivateKey (bufferFromHex privateKeyHex) &&
    (p2trAddress (internalKeyOf privateKeyHex) net).isSome

/-- The sender's own address (the implicit change address) derived from the
private key, network-scoped. -/
def senderChangeAddress (privateKeyHex : String) (net : Network) : String :=
  (p2trAddress (internalKeyOf privateKeyHex) net).getD ""

/-- The fee of a build result, when one is returned. -/
def buildFee (r : Except BuildError BuiltTransaction) : Option Int :=
  match r with
  | .ok t => some t.fee
  | .error _ => none

/-- The outputs of a build result, when one is returned. -/
def buildOutputs (r : Except BuildError BuiltTransaction) : Option (List TxOutput) :=
  match r with
  | .ok t => some t.outputs
  | .error _ => none

/-! ### The network-parameterized Bitcoin module (`src/lib/bitcoin.ts`) -/

namespace Bitcoin

/-- `nostrPubkeyToBitcoinAddress(pubkeyHex, network = 'mainnet')`: decode
the hex, derive the P2TR address for `getNetwork(network)`; a missing
address or a thrown library error both yield `''`. -/
def nostrPubkeyToBitcoinAddress (pubkeyHex : String)
    (network : BitcoinNetwork := .mainnet) : String :=
  match p2trAddress (bufferFromHex pubkeyHex) (getNetwork network) with
  | some address => address
  | none => ""

/-- `createBitcoinTransaction(privateKeyHex, toAddress, amountSats, utxos,
feeRate, network = 'mainnet')`: parse the key, derive the sender's change
address, add every supplied UTXO as an input, estimate the fee from the
fixed two-output size, compute the change, fail on insufficient funds,
add the destination output and — only above the 546-sat dust limit — the
change output, then sign, finalize and serialize. -/
def createBitcoinTransaction (privateKeyHex toAddress : String)
    (amountSats : Nat) (utxos : List UTXO) (feeRate : Nat)
    (network : BitcoinNetwork := .mainnet) :
    Except BuildError BuiltTransaction :=
  let privateKeyBuffer := bufferFromHex privateKeyHex
  if validPrivateKey privateKeyBuffer then
    let internalPubkey := ((publicKeyOfSecret privateKeyBuffer).drop 1).take 32
    let btcNetwork := getNetwork network
    match p2trAddress internalPubkey btcNetwork with
    | none => .error .changeAddressFailed
    | some changeAddress =>
      let inputs := utxos.map (fun utxo =>
        { hash := utxo.txid
          index := utxo.vout
          witnessScript := p2trOutputScript internalPubkey
          witnessValue := utxo.value
          tapInternalKey := internalPubkey : TxInput })
      let totalInput := totalValue utxos
      let estFee := estimatedFee utxos.length feeRate
      let change : Int := (totalInput : Int) - amountSats - estFee
      if change < 0 then
        .error (.insufficientFunds ((amountSats : Int) + estFee) (totalInput : Int))
      else
        let dustLimit : Int := 546
        let outputs := [{ address := toAddress, value := (amountSats : Int) : TxOutput }] ++
          (if change > dustLimit then
            [{ address := changeAddress, value := change : TxOutput }]
          else [])
        .ok { inputs := inputs
              outputs := outputs
              txHex := serializeTx inputs outputs
              fee := estFee }
  else .error .invalidPrivateKey

end Bitcoin

/-! ### The legacy mainnet-only Bitcoin module (second `bitcoin.ts` variant) -/

namespace LegacyBitcoin

/-- Legacy `nostrPubkeyToBitcoinAddress(pubkeyHex)`: identical body, with
`bitcoin.networks.bitcoin` hard-coded. -/
def nostrPubkeyToBitcoinAddress (pubkeyHex : String) : String :=
  match p2trAddress (bufferFromHex pubkeyHex) networksBitcoin with
  | some address => address
  | none => ""

/-- Legacy `createBitcoinTransaction(privateKeyHex, toAddress, amountSats,
utxos, feeRate)`: identical body, with `bitcoin.networks.bitcoin`
hard-coded everywhere the parameterized module uses `getNetwork(network)`. -/
def createBitcoinTransaction (privateKeyHex toAddress : String)
    (amountSats : Nat) (utxos : List UTXO) (feeRate : Nat) :
    Except BuildError BuiltTransaction :=
  let privateKeyBuffer := bufferFromHex privateKeyHex
  if validPrivateKey privateKeyBuffer then
    let internalPubkey := ((publicKeyOfSecret privateKeyBuffer).drop 1).take 32
    match p2trAddress internalPubkey networksBitcoin with
    | none => .error .changeAddressFailed
    | some changeAddress =>
      let inputs := utxos.map (fun utxo =>
        { hash := utxo.txid
          index := utxo.vout
          witnessScript := p2trOutputScript internalPubkey
          witnessValue := utxo.value
          tapInternalKey := internalPubkey : TxInput })
      let totalInput := totalValue utxos
      let estFee := estimatedFee utxos.length feeRate
      let change : Int := (totalInput : Int) - amountSats - estFee
      if change < 0 then
        .error (.insufficientFunds ((amountSats : Int) + estFee) (totalInput : Int))
      else
        let dustLimit : Int := 546
        let outputs := [{ address := toAddress, value := (amountSats : Int) : TxOutput }] ++
          (if change > dustLimit then
            [{ address := changeAddress, value := change : TxOutput }]
          else [])
        .ok { inputs := inputs
              outputs := outputs
              txHex := serializeTx inputs outputs
              fee := estFee }
  else .error .invalidPrivateKey

end LegacyBitcoin

/-! ### Evaluation lemmas -/

set_option maxRecDepth 4000

/-- The rational fee computation evaluates to pure integer arithmetic:
`Math.ceil((n*57.5 + 2*43 + 10.5) * r)` is `((115*n + 193)*r + 1) / 2`. -/
theorem estimatedFee_eval (n r : Nat) :
    estimatedFee n r = (((115 * n + 193) * r + 1 : ℕ) : ℤ) / 2 := by
  unfold estimatedFee
  have h1 : estimatedSize n * (r : ℚ) =
      ((((115 * n + 193) * r : ℕ) : ℤ) : ℚ) / ((2 : ℕ) : ℚ) := by
    unfold estimatedSize
    push_cast
    ring
  rw [h1]
  have h2 : ∀ x : ℚ, ⌈x⌉ = -⌊-x⌋ := fun x => by rw [Int.floor_neg, neg_neg]
  rw [h2, ← neg_div, ← Int.cast_neg, Rat.floor_intCast_div_natCast]
  generalize ((115 * n + 193) * r : ℕ) = a
  omega

/-- Unfolding of the builder on the insufficient-funds path: when the key
setup succeeds and the computed change is negative, the builder returns
exactly the insufficient-funds error with the required and available
totals. -/
theorem createBitcoinTransaction_eq_error (privateKeyHex toAddress : String)
    (amountSats : Nat) (utxos : List UTXO) (feeRate : Nat)
    (network : BitcoinNetwork)
    (hkey : keySetupOk privateKeyHex (getNetwork network) = true)
    (hneg : changeOf amountSats utxos feeRate < 0) :
    Bitcoin.createBitcoinTransaction privateKeyHex toAddress amountSats utxos feeRate network =
      .error (.insufficientFunds ((amountSats : Int) + estimatedFee utxos.length feeRate)
        (totalValue utxos : Int)) := by
  rw [keySetupOk, Bool.and_eq_true] at hkey
  obtain ⟨h1, h2⟩ := hkey
  obtain ⟨a, ha⟩ := Option.isSome_iff_exists.mp h2
  simp only [internalKeyOf] at ha
  have hneg' : ((totalValue utxos : Int) - amountSats - estimatedFee utxos.length feeRate) < 0 :=
    hneg
  simp only [Bitcoin.createBitcoinTransaction, h1, if_true, ha, hneg', if_pos]

/-- Unfolding of the builder on the success path: when the key setup
succeeds and the computed change is nonnegative, the builder returns the
estimated fee, the destination output and — exactly when the change
exceeds the 546-sat dust limit — one change output to the sender's own
address. -/
theorem createBitcoinTransaction_eq_ok (privateKeyHex toAddress : String)
    (amountSats : Nat) (utxos : List UTXO) (feeRate : Nat)
    (network : BitcoinNetwork)
    (hkey : keySetupOk privateKeyHex (getNetwork network) = true)
    (hpos : 0 ≤ changeOf amountSats utxos feeRate) :
    ∃ inputs,
      Bitcoin.createBitcoinTransaction privateKeyHex toAddress amountSats utxos feeRate network =
        .ok { inputs := inputs
              outputs := [⟨toAddress, (amountSats : Int)⟩] ++
                (if 546 < changeOf amountSats utxos feeRate then
                  [⟨senderChangeAddress privateKeyHex (getNetwork network),
                    changeOf amountSats utxos feeRate⟩]
                else [])
              txHex := serializeTx inputs ([⟨toAddress, (amountSats : Int)⟩] ++
                (if 546 < changeOf amountSats utxos feeRate then
                  [⟨senderChangeAddress privateKeyHex (getNetwork network),
                    changeOf amountSats utxos feeRate⟩]
                else []))
              fee := estimatedFee utxos.length feeRate } := by
  rw [keySetupOk, Bool.and_eq_true] at hkey
  obtain ⟨h1, h2⟩ := hkey
  obtain ⟨a, ha⟩ := Option.isSome_iff_exists.mp h2
  have hsender : senderChangeAddress privateKeyHex (getNetwork network) = a := by
    rw [senderChangeAddress, ha]
    rfl
  simp only [internalKeyOf] at ha
  have hneg' : ¬ ((totalValue utxos : Int) - amountSats - estimatedFee utxos.length feeRate) < 0 :=
    not_lt.mpr hpos
  refine ⟨utxos.map (fun utxo =>
    { hash := utxo.txid
      index := utxo.vout
      witnessScript :=
        p2trOutputScript (((publicKeyOfSecret (bufferFromHex privateKeyHex)).drop 1).take 32)
      witnessValue := utxo.value
      tapInternalKey := ((publicKeyOfSecret (bufferFromHex privateKeyHex)).drop 1).take 32 }), ?_⟩
  simp only [Bitcoin.createBitcoinTransaction, h1, if_true, ha, hneg', if_neg, hsender]
  rfl

/-! ### Concrete test fixtures for witnesses -/

/-- A valid 32-byte private key (the scalar 1); its x-only stand-in public
key is liftable, so the builder's key setup succeeds on every network. -/
def testKey : String :=
  "0000000000000000000000000000000000000000000000000000000000000001"

/-- A confirmed spendable output worth 100000 sats. -/
def testUtxo100k : UTXO :=
  { txid := "t0", vout := 0, value := 100000, status := { confirmed := true } }

/-! ### Claim theorems -/

/-- C1: for every call to the transaction builder that returns, with `n`
supplied spendable outputs and whole-number fee rate `r` sat/vB, the
returned fee equals `ceil((57.5*n + 2*43 + 10.5) * r)`, computed from the
fixed two-output topology regardless of the amount sent and regardless of
whether a change output is actually created (the fee is the same whether
the change exceeds the dust limit or not). -/
theorem createBitcoinTransaction_fee_formula (privateKeyHex toAddress : String)
    (amountSats : Nat) (utxos : List UTXO) (feeRate : Nat) (network : BitcoinNetwork)
    (hkey : keySetupOk privateKeyHex (getNetwork network) = true)
    (hfunds : 0 ≤ changeOf amountSats utxos feeRate) :
    buildFee
      (Bitcoin.createBitcoinTransaction privateKeyHex toAddress amountSats utxos feeRate network) =
      some ⌈((utxos.length : ℚ) * 57.5 + 2 * 43 + 10.5) * (feeRate : ℚ)⌉ := by
  obtain ⟨inputs, heq⟩ := createBitcoinTransaction_eq_ok privateKeyHex toAddress amountSats
    utxos feeRate network hkey hfunds
  rw [heq]
  rfl

/-- Witness for C1: one 100000-sat output, amount 50000, fee rate 10. -/
theorem createBitcoinTransaction_fee_formula_witness :
    (keySetupOk testKey (getNetwork .mainnet) = true ∧
      0 ≤ changeOf 50000 [testUtxo100k] 10) ∧
    buildFee (Bitcoin.createBitcoinTransaction testKey "bc1pdestination" 50000
        [testUtxo100k] 10 .mainnet) =
      some ⌈((([testUtxo100k] : List UTXO).length : ℚ) * 57.5 + 2 * 43 + 10.5) * ((10 : ℕ) : ℚ)⌉ :=
  ⟨⟨by decide, by simp only [changeOf, estimatedFee_eval]; decide⟩,
    createBitcoinTransaction_fee_formula testKey "bc1pdestination" 50000 [testUtxo100k] 10
      .mainnet (by decide) (by simp only [changeOf, estimatedFee_eval]; decide)⟩

/-- C2: whenever the sum of the supplied outputs' values is smaller than
`amountSats` plus the estimated fee, the builder fails with the
insufficient-funds error reporting `required = amountSats + estimatedFee`
and `available = totalInput`, and no transaction is returned. -/
theorem createBitcoinTransaction_insufficient_funds (privateKeyHex toAddress : String)
    (amountSats : Nat) (utxos : List UTXO) (feeRate : Nat) (network : BitcoinNetwork)
    (hkey : keySetupOk privateKeyHex (getNetwork network) = true)
    (hshort : (totalValue utxos : Int) <
      (amountSats : Int) + estimatedFee utxos.length feeRate) :
    Bitcoin.createBitcoinTransaction privateKeyHex toAddress amountSats utxos feeRate network =
      .error (.insufficientFunds ((amountSats : Int) + estimatedFee utxos.length feeRate)
        (totalValue utxos : Int)) := by
  apply createBitcoinTransaction_eq_error privateKeyHex toAddress amountSats utxos feeRate
    network hkey
  unfold changeOf
  omega

/-- Witness for C2: an empty output set cannot fund a 1000-sat send. -/
theorem createBitcoinTransaction_insufficient_funds_witness :
    (keySetupOk testKey (getNetwork .mainnet) = true ∧
      (totalValue [] : Int) < (1000 : Nat) + estimatedFee ([] : List UTXO).length 1) ∧
    Bitcoin.createBitcoinTransaction testKey "bc1pdestination" 1000 [] 1 .mainnet =
      .error (.insufficientFunds ((1000 : Nat) + estimatedFee ([] : List UTXO).length 1)
        (totalValue [] : Int)) :=
  ⟨⟨by decide, by simp only [estimatedFee_eval]; decide⟩,
    createBitcoinTransaction_insufficient_funds testKey "bc1pdestination" 1000 [] 1 .mainnet
      (by decide) (by simp only [estimatedFee_eval]; decide)⟩

/-- C3: every successful build creates exactly one destination output for
`amountSats`, and a change output — paying the sender's own address — if
and only if the computed change strictly exceeds 546: a change of exactly
546 creates no change output (and no error), a change of 547 creates
exactly one. -/
theorem createBitcoinTransaction_dust_rule (privateKeyHex toAddress : String)
    (amountSats : Nat) (utxos : List UTXO) (feeRate : Nat) (network : BitcoinNetwork)
    (hkey : keySetupOk privateKeyHex (getNetwork network) = true)
    (hfunds : 0 ≤ changeOf amountSats utxos feeRate) :
    buildOutputs
      (Bitcoin.createBitcoinTransaction privateKeyHex toAddress amountSats utxos feeRate network) =
      some ([⟨toAddress, (amountSats : Int)⟩] ++
        (if 546 < changeOf amountSats utxos feeRate then
          [⟨senderChangeAddress privateKeyHex (getNetwork network),
            changeOf amountSats utxos feeRate⟩]
        else [])) ∧
    (changeOf amountSats utxos feeRate = 546 →
      buildOutputs
        (Bitcoin.createBitcoinTransaction privateKeyHex toAddress amountSats utxos feeRate network) =
        some [⟨toAddress, (amountSats : Int)⟩]) ∧
    (changeOf amountSats utxos feeRate = 547 →
      buildOutputs
        (Bitcoin.createBitcoinTransaction privateKeyHex toAddress amountSats utxos feeRate network) =
        some [⟨toAddress, (amountSats : Int)⟩,
          ⟨senderChangeAddress privateKeyHex (getNetwork network), 547⟩]) := by
  obtain ⟨inputs, heq⟩ := createBitcoinTransaction_eq_ok privateKeyHex toAddress amountSats
    utxos feeRate network hkey hfunds
  refine ⟨by rw [heq]; rfl, fun h546 => ?_, fun h547 => ?_⟩
  · rw [heq]
    simp [h546, buildOutputs]
  · rw [heq]
    simp [h547, buildOutputs]

/-- A confirmed spendable output worth 1855 sats (change of exactly 547
at amount 1000 and fee rate 2). -/
def testUtxo1855 : UTXO :=
  { txid := "t1", vout := 1, value := 1855, status := { confirmed := true } }

/-- Witness for C3: one 1855-sat output, amount 1000, fee rate 2, giving a
change of exactly 547 (just above the dust limit). -/
theorem createBitcoinTransaction_dust_rule_witness :
    (keySetupOk testKey (getNetwork .testnet) = true ∧
      0 ≤ changeOf 1000 [testUtxo1855] 2 ∧ changeOf 1000 [testUtxo1855] 2 = 547) ∧
    buildOutputs (Bitcoin.createBitcoinTransaction testKey "tb1pdestination" 1000
        [testUtxo1855] 2 .testnet) =
      some [⟨"tb1pdestination", (1000 : Int)⟩,
        ⟨senderChangeAddress testKey (getNetwork .testnet), 547⟩] :=
  ⟨⟨by decide, by simp only [changeOf, estimatedFee_eval]; decide,
      by simp only [changeOf, estimatedFee_eval]; decide⟩,
    (createBitcoinTransaction_dust_rule testKey "tb1pdestination" 1000 [testUtxo1855] 2
        .testnet (by decide) (by simp only [changeOf, estimatedFee_eval]; decide)).2.2
      (by simp only [changeOf, estimatedFee_eval]; decide)⟩

/-- A confirmed spendable output worth 1608 sats (change of 300 — positive
but below the dust limit — at amount 1000 and fee rate 2). -/
def testUtxo1608 : UTXO :=
  { txid := "t2", vout := 0, value := 1608, status := { confirmed := true } }

/-- C4, counterexample to the claim as stated: with one 1608-sat output,
amount 1000 and fee rate 2 the build succeeds with a single output (no
change output, since the 300-sat change is below dust), total input 1608,
and the returned `feePaid = 308`, yet `feePaid + A = 1308 ≠ 1608 = T`:
when no change output is created the returned fee does not satisfy
`feePaid + A = totalInput`. -/
theorem value_conservation_cex :
    Option.map List.length (buildOutputs (Bitcoin.createBitcoinTransaction testKey
        "bc1pdestination" 1000 [testUtxo1608] 2 .mainnet)) = some 1 ∧
    buildFee (Bitcoin.createBitcoinTransaction testKey
        "bc1pdestination" 1000 [testUtxo1608] 2 .mainnet) = some 308 ∧
    (totalValue [testUtxo1608] : Int) = 1608 ∧
    ¬ ((308 : Int) + 1000 = 1608) := by
  refine ⟨?_, ?_, by decide, by decide⟩
  · simp +decide [Bitcoin.createBitcoinTransaction, buildOutputs, estimatedFee_eval,
      totalValue, testUtxo1608]
  · simp +decide [Bitcoin.createBitcoinTransaction, buildFee, estimatedFee_eval,
      totalValue, testUtxo1608]

/-- C4 as amended: for every successful build, the returned fee is the
estimate; when a change output is created (change > 546) the total input
equals change + amount + feePaid; when none is created (change ≤ 546) the
conservation only holds up to the absorbed sub-dust surplus:
`feePaid + A ≤ T ≤ feePaid + A + 546` (the surplus `T - A - feePaid` is
paid as extra mining fee but is not reflected in the returned `feePaid`). -/
theorem value_conservation_amended (privateKeyHex toAddress : String)
    (amountSats : Nat) (utxos : List UTXO) (feeRate : Nat) (network : BitcoinNetwork)
    (hkey : keySetupOk privateKeyHex (getNetwork network) = true)
    (hfunds : 0 ≤ changeOf amountSats utxos feeRate) :
    buildFee
      (Bitcoin.createBitcoinTransaction privateKeyHex toAddress amountSats utxos feeRate network) =
      some (estimatedFee utxos.length feeRate) ∧
    (546 < changeOf amountSats utxos feeRate →
      Option.map List.length (buildOutputs (Bitcoin.createBitcoinTransaction privateKeyHex
        toAddress amountSats utxos feeRate network)) = some 2 ∧
      (totalValue utxos : Int) =
        changeOf amountSats utxos feeRate + amountSats + estimatedFee utxos.length feeRate) ∧
    (changeOf amountSats utxos feeRate ≤ 546 →
      Option.map List.length (buildOutputs (Bitcoin.createBitcoinTransaction privateKeyHex
        toAddress amountSats utxos feeRate network)) = some 1 ∧
      (amountSats : Int) + estimatedFee utxos.length feeRate ≤ totalValue utxos ∧
      (totalValue utxos : Int) ≤
        (amountSats : Int) + estimatedFee utxos.length feeRate + 546) := by
  obtain ⟨inputs, heq⟩ := createBitcoinTransaction_eq_ok privateKeyHex toAddress amountSats
    utxos feeRate network hkey hfunds
  refine ⟨by rw [heq]; rfl, fun hgt => ⟨?_, ?_⟩, fun hle => ⟨?_, ?_, ?_⟩⟩
  · rw [heq]
    simp [buildOutputs, hgt]
  · unfold changeOf
    ring
  · rw [heq]
    simp [buildOutputs, not_lt.mpr hle]
  · unfold changeOf at hfunds
    omega
  · unfold changeOf at hle
    omega

/-- Witness for the amended C4: the sub-dust case at change 300. -/
theorem value_conservation_amended_witness :
    (keySetupOk testKey (getNetwork .testnet) = true ∧
      0 ≤ changeOf 1000 [testUtxo1608] 2 ∧ changeOf 1000 [testUtxo1608] 2 ≤ 546) ∧
    (Option.map List.length (buildOutputs (Bitcoin.createBitcoinTransaction testKey
        "tb1pdestination" 1000 [testUtxo1608] 2 .testnet)) = some 1 ∧
      (1000 : Int) + estimatedFee [testUtxo1608].length 2 ≤ totalValue [testUtxo1608] ∧
      (totalValue [testUtxo1608] : Int) ≤
        (1000 : Int) + estimatedFee [testUtxo1608].length 2 + 546) :=
  ⟨⟨by decide, by simp only [changeOf, estimatedFee_eval]; decide,
      by simp only [changeOf, estimatedFee_eval]; decide⟩,
    (value_conservation_amended testKey "tb1pdestination" 1000 [testUtxo1608] 2 .testnet
        (by decide) (by simp only [changeOf, estimatedFee_eval]; decide)).2.2
      (by simp only [changeOf, estimatedFee_eval]; decide)⟩

/-- C5, counterexample to the claim as stated: on one 100000-sat output,
amount 50000, fee rate 10, the builder's estimated size is
`57.5 + 2*43 + 10.5 = 154` vbytes (not 153.5), so the returned fee is
1540, not the claimed 1535. -/
theorem scenario_100k_fee_cex :
    buildFee (Bitcoin.createBitcoinTransaction testKey "bc1pdestination" 50000
        [testUtxo100k] 10 .mainnet) = some 1540 ∧
    ¬ ((1540 : Int) = 1535) := by
  refine ⟨?_, by decide⟩
  simp +decide [Bitcoin.createBitcoinTransaction, buildFee, estimatedFee_eval,
    totalValue, testUtxo100k]

/-- C5 as amended: for every key whose setup succeeds, one 100000-sat
output, amount 50000 and fee rate 10 yield `feePaid = 1540` and
`change = 48460`, which is above the dust threshold, so the transaction is
created with two outputs (destination and change). -/
theorem scenario_100k_amended (privateKeyHex toAddress : String) (network : BitcoinNetwork)
    (hkey : keySetupOk privateKeyHex (getNetwork network) = true) :
    buildFee (Bitcoin.createBitcoinTransaction privateKeyHex toAddress 50000
        [testUtxo100k] 10 network) = some 1540 ∧
    changeOf 50000 [testUtxo100k] 10 = 48460 ∧
    (546 : Int) < 48460 ∧
    Option.map List.length (buildOutputs (Bitcoin.createBitcoinTransaction privateKeyHex
        toAddress 50000 [testUtxo100k] 10 network)) = some 2 := by
  have hch : changeOf 50000 [testUtxo100k] 10 = 48460 := by
    simp only [changeOf, estimatedFee_eval]
    decide
  have hfee : estimatedFee [testUtxo100k].length 10 = 1540 := by
    simp only [estimatedFee_eval]
    decide
  obtain ⟨inputs, heq⟩ := createBitcoinTransaction_eq_ok privateKeyHex toAddress 50000
    [testUtxo100k] 10 network hkey (by rw [hch]; decide)
  refine ⟨by rw [heq, ← hfee]; rfl, hch, by decide, ?_⟩
  rw [heq]
  simp [buildOutputs, hch]

/-- Witness for the amended C5, on the testnet4 profile. -/
theorem scenario_100k_amended_witness :
    keySetupOk testKey (getNetwork .testnet4) = true ∧
    buildFee (Bitcoin.createBitcoinTransaction testKey "tb1pdestination" 50000
        [testUtxo100k] 10 .testnet4) = some 1540 :=
  ⟨by decide,
    (scenario_100k_amended testKey "tb1pdestination" .testnet4 (by decide)).1⟩

/-- C6: network parameter resolution is total over the three enumerated
profiles (both `getNetwork` and `getApiUrl` are total functions of the
`BitcoinNetwork` enumeration, with no error case): testnet and testnet4
resolve to the same chain-parameter set — hence address derivation is
identical on the two test profiles — while the explorer base URLs of the
three profiles are pairwise distinct. -/
theorem network_resolution_total :
    getNetwork .testnet = getNetwork .testnet4 ∧
    (∀ pubkeyHex : String,
      Bitcoin.nostrPubkeyToBitcoinAddress pubkeyHex .testnet =
        Bitcoin.nostrPubkeyToBitcoinAddress pubkeyHex .testnet4) ∧
    getApiUrl .mainnet ≠ getApiUrl .testnet ∧
    getApiUrl .mainnet ≠ getApiUrl .testnet4 ∧
    getApiUrl .testnet ≠ getApiUrl .testnet4 :=
  ⟨rfl, fun _ => rfl, by decide, by decide, by decide⟩

/-- C7: address derivation is a pure, deterministic function of the public
key and the network, with no other dependency: two calls with equal inputs
return equal address strings (idempotence across repeated calls). -/
theorem address_derivation_deterministic (pk₁ pk₂ : String)
    (net₁ net₂ : BitcoinNetwork) (hp : pk₁ = pk₂) (hn : net₁ = net₂) :
    Bitcoin.nostrPubkeyToBitcoinAddress pk₁ net₁ =
      Bitcoin.nostrPubkeyToBitcoinAddress pk₂ net₂ := by
  rw [hp, hn]

/-- Witness for C7 at a concrete key and network. -/
theorem address_derivation_deterministic_witness :
    (("00ab" : String) = "00ab" ∧ BitcoinNetwork.mainnet = BitcoinNetwork.mainnet) ∧
    Bitcoin.nostrPubkeyToBitcoinAddress "00ab" .mainnet =
      Bitcoin.nostrPubkeyToBitcoinAddress "00ab" .mainnet :=
  ⟨⟨rfl, rfl⟩, address_derivation_deterministic "00ab" "00ab" .mainnet .mainnet rfl rfl⟩

/-- C8: every malformed public-key input — one whose hex decoding is not
exactly 32 bytes (wrong length, odd length, or non-hex characters, which
Node's hex decoding truncates), or a 32-byte value that is not a canonical
x-only key (it does not lift to a curve point, so the library throws) —
makes `nostrPubkeyToBitcoinAddress` return the empty string instead of
letting the exception escape. -/
theorem address_derivation_malformed (pubkeyHex : String) (network : BitcoinNetwork)
    (hmal : isValidXOnly (bufferFromHex pubkeyHex) = false) :
    Bitcoin.nostrPubkeyToBitcoinAddress pubkeyHex network = "" := by
  simp [Bitcoin.nostrPubkeyToBitcoinAddress, p2trAddress, hmal]

/-- Witness for C8: a 2-byte (wrong-length) input yields the empty string. -/
theorem address_derivation_malformed_witness :
    isValidXOnly (bufferFromHex "1234") = false ∧
    Bitcoin.nostrPubkeyToBitcoinAddress "1234" .mainnet = "" :=
  ⟨by decide, address_derivation_malformed "1234" .mainnet (by decide)⟩

/-- C10: the two near-duplicate Bitcoin modules are behaviorally
equivalent on mainnet: for all arguments, the legacy mainnet-only
`createBitcoinTransaction` returns the same result (transaction and fee,
or the same error) as the network-parameterized one invoked with
`'mainnet'`, and the legacy `nostrPubkeyToBitcoinAddress` agrees with the
parameterized one at its default `'mainnet'` argument. -/
theorem modules_equivalent_mainnet :
    (∀ (privateKeyHex toAddress : String) (amountSats : Nat)
        (utxos : List UTXO) (feeRate : Nat),
      LegacyBitcoin.createBitcoinTransaction privateKeyHex toAddress amountSats utxos feeRate =
        Bitcoin.createBitcoinTransaction privateKeyHex toAddress amountSats utxos feeRate
          .mainnet) ∧
    (∀ pubkeyHex : String,
      LegacyBitcoin.nostrPubkeyToBitcoinAddress pubkeyHex =
        Bitcoin.nostrPubkeyToBitcoinAddress pubkeyHex .mainnet) :=
  ⟨fun _ _ _ _ _ => rfl, fun _ => rfl⟩
